import Mathlib

/-!
# Verification of `src/event_fixer.py` (ATTPC/event_toolkit)

Shallow embedding of the HDF5 event-number repair tool.  An HDF5 group is
modelled as an association list from structured key names to records; the
key names occurring in the program are exactly the strings `evt{n}_data`,
`evt{n}_header` and `evt{n}_1903` (plus arbitrary other names), which are in
bijection with the inductive `Key` below.  `h5py.Group.move` removes the
link at the old name and installs it at the new name; it raises if the old
name is absent (KeyNotFoundError) and also raises if the destination name
already exists, which we model with `MoveError`.  A Python `for` loop over
renames that can raise is modelled by `runMoves`, which stops at the first
failing rename and keeps the state reached so far (mutations already made
to the file persist when an exception propagates).

Integer metadata values (`int(meta_data[0])` etc.) are modelled as `Int`.
Timestamp header fields are integer-valued counters; on such values the
`float` conversions in `check_timestamps` are exact, so both the reference
offset and the per-event offsets are modelled in `Int`.
-/

/-- Structured HDF5 entry names.  `Key.data n` stands for the string
`evt{n}_data`, `Key.header n` for `evt{n}_header`, `Key.k1903 n` for
`evt{n}_1903`; `Key.other s` covers any other entry name. -/
inductive Key : Type where
  | data (n : Int)
  | header (n : Int)
  | k1903 (n : Int)
  | other (s : String)
deriving DecidableEq, Repr

/-- The string rendered by the f-strings of the source for each key. -/
def Key.render : Key → String
  | .data n => "evt" ++ toString n ++ "_data"
  | .header n => "evt" ++ toString n ++ "_header"
  | .k1903 n => "evt" ++ toString n ++ "_1903"
  | .other s => s

/-- An HDF5 group: a mapping from entry names to records, as an
association list (keys are unique in an actual HDF5 group). -/
abbrev H5Group (α : Type) : Type := List (Key × α)

/-- Lookup of `g[k]` in a group. -/
def lookupKey {α : Type} : H5Group α → Key → Option α
  | [], _ => none
  | (k', v) :: rest, k => if k' = k then some v else lookupKey rest k

/-- Remove every entry named `k` (at most one in a well-formed group). -/
def removeKey {α : Type} : H5Group α → Key → H5Group α
  | [], _ => []
  | (k', v) :: rest, k =>
      if k' = k then removeKey rest k else (k', v) :: removeKey rest k

/-- The two ways `h5py.Group.move` can raise: the source link is absent
(`KeyNotFoundError`), or the destination link already exists. -/
inductive MoveError : Type where
  | keyNotFound
  | destOccupied
deriving DecidableEq, Repr

/-- `h5py.Group.move(old, new)`: relink the record stored at `old` under
the name `new`.  Fails if `old` is absent or `new` is already present. -/
def moveKey {α : Type} (g : H5Group α) (old new : Key) :
    Except MoveError (H5Group α) :=
  match lookupKey g old with
  | none => Except.error MoveError.keyNotFound
  | some v =>
    match lookupKey g new with
    | some _ => Except.error MoveError.destOccupied
    | none => Except.ok (removeKey g old ++ [(new, v)])

/-- Run a sequence of renames (a Python `for` loop of `move` calls): stop
at the first failing rename, keeping the group state reached so far and
recording the error that propagates. -/
def runMoves {α : Type} : H5Group α → List (Key × Key) → H5Group α × Option MoveError
  | g, [] => (g, none)
  | g, (o, n) :: rest =>
    match moveKey g o n with
    | Except.error e => (g, some e)
    | Except.ok g' => runMoves g' rest

/-- The rename list of a loop that moves, for `j = 0, 1, ..., count-1`, the
pair of entries `(mkA (src0+j), mkB (src0+j))` to `(mkA (tgt0+j), mkB (tgt0+j))`,
`mkA` first as in the source. -/
def shiftMoves (mkA mkB : Int → Key) : Int → Int → Nat → List (Key × Key)
  | _, _, 0 => []
  | src0, tgt0, c + 1 =>
      (mkA src0, mkA tgt0) :: (mkB src0, mkB tgt0) ::
        shiftMoves mkA mkB (src0 + 1) (tgt0 + 1) c

/-- Renames of the GET offset repair (source lines 60-66):
`for idx, event in enumerate(trange(event_min, event_max + 1))` move
`evt{event}_data -> evt{idx}_data` then `evt{event}_header -> evt{idx}_header`.
Here `event = event_min + idx`, `idx = 0, ..., (event_max + 1 - event_min) - 1`. -/
def getMoves (emin emax : Int) : List (Key × Key) :=
  shiftMoves Key.data Key.header emin 0 (emax + 1 - emin).toNat

/-- Renames of the FRIB shift-by-one repair (source lines 97-106):
`for event in trange(0, event_range + 1)` move
`evt{event+1}_1903 -> evt{event}_1903` then `evt{event+1}_header -> evt{event}_header`. -/
def fribMoves (event_range : Int) : List (Key × Key) :=
  shiftMoves Key.k1903 Key.header 1 0 (event_range + 1).toNat

/-- One merged HDF5 run file, restricted to the parts the tool touches:
the `meta/meta` numeric record, the `get` group and the (possibly absent)
`frib/evt` group.  `frib_evt = none` covers both a missing `frib` group and
a missing `evt` subgroup (the bare `except:` at line 76 merges the two). -/
structure Container (α β : Type) : Type where
  meta_data : List Int
  get : H5Group α
  frib_evt : Option (H5Group β)
deriving DecidableEq, Repr

/-- How a run of `fix_event_numbers` ends. -/
inductive FixOutcome : Type where
  /-- reading `meta_data[0]` or `meta_data[2]` raised -/
  | accessError
  /-- a rename of the GET repair loop raised, aborting the run -/
  | getMoveError (e : MoveError)
  /-- "did not contain FRIBDAQ data. Skipping." (lines 77, 82) -/
  | noFrib
  /-- "evt end looks ok. Skipping." (line 90) -/
  | fribOk
  /-- a rename of the FRIB repair loop raised, aborting the run -/
  | fribMoveError (e : MoveError)
  /-- "Run ... fixed." (line 108) -/
  | fixed
deriving DecidableEq, Repr

/-- Final state of the file together with how the run ended. -/
structure FixResult (α β : Type) : Type where
  container : Container α β
  outcome : FixOutcome
deriving DecidableEq, Repr

/-- The GET phase (source lines 55-69): if `event_min != 0`, run the offset
rename loop; on success set `meta_data[0] = 0` and
`meta_data[2] = event_max - event_min`.  If a rename raises, the exception
propagates before the metadata is touched, leaving the renames made so far. -/
def fixGetPhase {α β : Type} (c : Container α β) (emin emax : Int) :
    Container α β × Option MoveError :=
  if emin ≠ 0 then
    match runMoves c.get (getMoves emin emax) with
    | (g', none) =>
        ({ c with
            get := g'
            meta_data := (c.meta_data.set 0 0).set 2 (emax - emin) }, none)
    | (g', some e) => ({ c with get := g' }, some e)
  else (c, none)

/-- The probe of lines 87-89: index `evt0_1903`, then `evt{event_range}_1903`;
the error value is the message of the exception the failed lookup raises. -/
def probeFrib {β : Type} (g : H5Group β) (event_range : Int) : Except String Unit :=
  match lookupKey g (Key.k1903 0) with
  | none => Except.error "KeyError evt0_1903"
  | some _ =>
    match lookupKey g (Key.k1903 event_range) with
    | none => Except.error ("KeyError evt" ++ toString event_range ++ "_1903")
    | some _ => Except.ok ()

/-- The `try/except: pass` of lines 86-93 around the probe: if the probe body
completes, return (skip); on any exception whatsoever, fall through to the
repair.  `ε` is arbitrary: every exception value takes the repair branch. -/
def fribAfterProbe {ε ρ : Type} (probe : Except ε Unit) (skip rep : ρ) : ρ :=
  match probe with
  | Except.ok _ => skip
  | Except.error _ => rep

/-- The FRIB shift-by-one rename loop of lines 95-106 applied to the
`frib/evt` group `g` of container `c1`. -/
def fribRepair {α β : Type} (c1 : Container α β) (g : H5Group β)
    (event_range : Int) : FixResult α β :=
  match runMoves g (fribMoves event_range) with
  | (g', none) => ⟨{ c1 with frib_evt := some g' }, FixOutcome.fixed⟩
  | (g', some e) => ⟨{ c1 with frib_evt := some g' }, FixOutcome.fribMoveError e⟩

/-- The FRIB phase (source lines 71-106) run on the container state `c1`
left by the GET phase; `event_range` was computed at line 53 from the
original metadata, before the GET phase rewrote it. -/
def fribPhase {α β : Type} (c1 : Container α β) (event_range : Int) :
    FixResult α β :=
  match c1.frib_evt with
  | none => ⟨c1, FixOutcome.noFrib⟩
  | some g =>
    if g.length = 0 then ⟨c1, FixOutcome.noFrib⟩
    else
      fribAfterProbe (probeFrib g event_range)
        ⟨c1, FixOutcome.fribOk⟩
        (fribRepair c1 g event_range)

/-- `fix_event_numbers` (source lines 32-108): read
`event_min = int(meta_data[0])`, `event_max = int(meta_data[2])`,
`event_range = event_max - event_min`; run the GET phase; if it raised,
the exception aborts the run with the metadata not yet rewritten;
otherwise run the FRIB phase. -/
def fix_event_numbers {α β : Type} (c : Container α β) : FixResult α β :=
  match c.meta_data[0]?, c.meta_data[2]? with
  | some emin, some emax =>
    match fixGetPhase c emin emax with
    | (c1, some e) => ⟨c1, FixOutcome.getMoveError e⟩
    | (c1, none) => fribPhase c1 (emax - emin)
  | _, _ => ⟨c, FixOutcome.accessError⟩

/-- The parts of a run file read by `check_timestamps`: headers are the
numeric records `evt{n}_header` of the two groups. -/
structure CheckContainer : Type where
  meta_data : List Int
  get : H5Group (List Int)
  frib_evt : H5Group (List Int)
deriving DecidableEq, Repr

/-- How a run of `check_timestamps` ends. -/
inductive CheckResult : Type where
  /-- a lookup of a header or header field raised -/
  | accessError
  /-- "Event {event} timestamp mismatch. Found offset of {this_offset}
  from get {get_header[2]} and frib {frib_header[1]} ..." (lines 140-143) -/
  | mismatch (event this_offset getVal fribVal : Int)
  /-- "Finished, timestamps match as expected" (line 144) -/
  | success
deriving DecidableEq, Repr

/-- `group[evt{event}_header][i]`: header field `i` of event `event`. -/
def hdrVal (g : H5Group (List Int)) (event : Int) (i : Nat) : Option Int :=
  (lookupKey g (Key.header event)).bind fun h => h[i]?

/-- The scan loop of lines 135-143: for `count` events starting at `event`,
read `get_header[2]` and `frib_header[1]`, form
`this_offset = int(get_header[2]) - int(frib_header[1])` and return at the
first event with `this_offset - offset > 1`. -/
def checkLoop (gg ff : H5Group (List Int)) (offset : Int) :
    Int → Nat → CheckResult
  | _, 0 => CheckResult.success
  | event, c + 1 =>
    match hdrVal gg event 2, hdrVal ff event 1 with
    | some gv, some fv =>
      if gv - fv - offset > 1 then CheckResult.mismatch event (gv - fv) gv fv
      else checkLoop gg ff offset (event + 1) c
    | _, _ => CheckResult.accessError

/-- `check_timestamps` (source lines 111-144): read `event_min`,
`event_max` from the metadata, form the reference offset from the headers
at `event_min`, then scan `range(event_min, event_max)`.  On integer-valued
timestamps the source's `float` casts are exact, so the reference offset is
the same integer difference as the per-event offsets. -/
def check_timestamps (c : CheckContainer) : CheckResult :=
  match c.meta_data[0]?, c.meta_data[2]? with
  | some emin, some emax =>
    match hdrVal c.get emin 2, hdrVal c.frib_evt emin 1 with
    | some g0, some f0 =>
        checkLoop c.get c.frib_evt (g0 - f0) emin (emax - emin).toNat
    | _, _ => CheckResult.accessError
  | _, _ => CheckResult.accessError

/-! ## Pointwise lemmas about the group operations -/

theorem lookupKey_nil {α : Type} (k : Key) : lookupKey ([] : H5Group α) k = none := rfl

theorem lookupKey_cons {α : Type} (k' : Key) (v : α) (rest : H5Group α) (k : Key) :
    lookupKey ((k', v) :: rest) k = if k' = k then some v else lookupKey rest k := rfl

theorem lookupKey_removeKey {α : Type} (g : H5Group α) (o k : Key) :
    lookupKey (removeKey g o) k = if k = o then none else lookupKey g k := by
  induction g with
  | nil => simp [removeKey, lookupKey]
  | cons p rest ih =>
    obtain ⟨k', v⟩ := p
    by_cases h1 : k' = o <;> by_cases h2 : k' = k <;>
      simp_all [removeKey, lookupKey]

theorem lookupKey_append {α : Type} (g₁ g₂ : H5Group α) (k : Key) :
    lookupKey (g₁ ++ g₂) k =
      match lookupKey g₁ k with
      | some v => some v
      | none => lookupKey g₂ k := by
  induction g₁ with
  | nil => simp [lookupKey]
  | cons p rest ih =>
    obtain ⟨k', v⟩ := p
    by_cases h : k' = k <;> simp [lookupKey, h, ih]

theorem moveKey_ok_lookup {α : Type} {g g' : H5Group α} {o n : Key}
    (h : moveKey g o n = Except.ok g') (k : Key) :
    lookupKey g' k =
      if k = n then lookupKey g o else if k = o then none else lookupKey g k := by
  unfold moveKey at h
  cases ho : lookupKey g o with
  | none => rw [ho] at h; cases h
  | some v =>
    rw [ho] at h
    cases hn : lookupKey g n with
    | some w => rw [hn] at h; cases h
    | none =>
      rw [hn] at h
      cases h
      rw [lookupKey_append, lookupKey_removeKey]
      by_cases hkn : k = n
      · subst hkn
        by_cases hko : k = o
        · subst hko; rw [ho] at hn; cases hn
        · simp [hko, hn, ho, lookupKey]
      · by_cases hko : k = o
        · simp only [if_neg hkn, if_pos hko]
          simp [lookupKey, Ne.symm hkn]
        · simp only [if_neg hkn, if_neg hko]
          cases hk : lookupKey g k with
          | none => simp [lookupKey, Ne.symm hkn]
          | some w => rfl

theorem moveKey_ok_of {α : Type} {g : H5Group α} {o n : Key}
    (ho : (lookupKey g o).isSome) (hn : lookupKey g n = none) :
    ∃ g', moveKey g o n = Except.ok g' := by
  unfold moveKey
  cases hov : lookupKey g o with
  | none => rw [hov] at ho; simp at ho
  | some v => rw [hn]; exact ⟨_, rfl⟩

theorem moveKey_keyNotFound_iff {α : Type} (g : H5Group α) (o n : Key) :
    moveKey g o n = Except.error MoveError.keyNotFound ↔ lookupKey g o = none := by
  unfold moveKey
  cases lookupKey g o with
  | none => simp
  | some v => cases lookupKey g n <;> simp

theorem runMoves_nil {α : Type} (g : H5Group α) : runMoves g [] = (g, none) := rfl

theorem runMoves_cons_ok {α : Type} {g g' : H5Group α} {o n : Key}
    (ms : List (Key × Key)) (h : moveKey g o n = Except.ok g') :
    runMoves g ((o, n) :: ms) = runMoves g' ms := by
  simp [runMoves, h]

theorem runMoves_cons_err {α : Type} {g : H5Group α} {o n : Key} {e : MoveError}
    (ms : List (Key × Key)) (h : moveKey g o n = Except.error e) :
    runMoves g ((o, n) :: ms) = (g, some e) := by
  simp [runMoves, h]

/-! ## The ascending shift-rename loop

Both repair loops of `fix_event_numbers` rename, for `j = 0, ..., count-1`
in ascending order, the pair of entries at index `src0 + j` to index
`tgt0 + j`, with `tgt0 < src0`.  The next lemma shows that on a group
holding all the source entries, and no entry at the target indices below
`src0`, every rename finds its source present and its target absent, and
characterises the final group pointwise. -/

theorem runMoves_shift {α : Type} (mkA mkB : Int → Key)
    (hA : ∀ i j : Int, mkA i = mkA j → i = j)
    (hB : ∀ i j : Int, mkB i = mkB j → i = j)
    (hAB : ∀ i j : Int, mkA i ≠ mkB j) :
    ∀ (count : Nat) (src0 tgt0 : Int) (g : H5Group α),
      tgt0 < src0 →
      (∀ j : Nat, j < count →
        (lookupKey g (mkA (src0 + j))).isSome ∧ (lookupKey g (mkB (src0 + j))).isSome) →
      (∀ j : Nat, j < count → tgt0 + j < src0 →
        lookupKey g (mkA (tgt0 + j)) = none ∧ lookupKey g (mkB (tgt0 + j)) = none) →
      ∃ g', runMoves g (shiftMoves mkA mkB src0 tgt0 count) = (g', none) ∧
        (∀ j : Nat, j < count →
          lookupKey g' (mkA (tgt0 + j)) = lookupKey g (mkA (src0 + j)) ∧
          lookupKey g' (mkB (tgt0 + j)) = lookupKey g (mkB (src0 + j))) ∧
        (∀ j : Nat, j < count → tgt0 + count ≤ src0 + j →
          lookupKey g' (mkA (src0 + j)) = none ∧ lookupKey g' (mkB (src0 + j)) = none) ∧
        (∀ k : Key,
          (∀ j : Nat, j < count →
            k ≠ mkA (tgt0 + j) ∧ k ≠ mkB (tgt0 + j) ∧
            k ≠ mkA (src0 + j) ∧ k ≠ mkB (src0 + j)) →
          lookupKey g' k = lookupKey g k) := by
  intro count
  induction count with
  | zero =>
    intro src0 tgt0 g _ _ _
    refine ⟨g, rfl, ?_, ?_, ?_⟩
    · intro j hj; exact absurd hj (Nat.not_lt_zero j)
    · intro j hj; exact absurd hj (Nat.not_lt_zero j)
    · intro k _; rfl
  | succ c ih =>
    intro src0 tgt0 g hlt hsrc htgt
    have nAB : ∀ i j : Int, mkA i ≠ mkB j := hAB
    have nBA : ∀ i j : Int, mkB i ≠ mkA j := fun i j h => hAB j i h.symm
    have nAts : mkA tgt0 ≠ mkA src0 := fun h => absurd (hA _ _ h) (by omega)
    have nBts : mkB tgt0 ≠ mkB src0 := fun h => absurd (hB _ _ h) (by omega)
    have hs0 := hsrc 0 (Nat.succ_pos c)
    have ht0 := htgt 0 (Nat.succ_pos c) (by push_cast; omega)
    simp only [Nat.cast_zero, add_zero] at hs0 ht0
    obtain ⟨g1, hg1⟩ := moveKey_ok_of hs0.1 ht0.1
    have p1 := moveKey_ok_lookup hg1
    have hb_src : (lookupKey g1 (mkB src0)).isSome := by
      rw [p1 (mkB src0), if_neg (nBA src0 tgt0), if_neg (nBA src0 src0)]
      exact hs0.2
    have hb_tgt : lookupKey g1 (mkB tgt0) = none := by
      rw [p1 (mkB tgt0), if_neg (nBA tgt0 tgt0), if_neg (nBA tgt0 src0)]
      exact ht0.2
    obtain ⟨g2, hg2⟩ := moveKey_ok_of hb_src hb_tgt
    have p2 := moveKey_ok_lookup hg2
    have px : ∀ k : Key, lookupKey g2 k =
        if k = mkA tgt0 then lookupKey g (mkA src0)
        else if k = mkB tgt0 then lookupKey g (mkB src0)
        else if k = mkA src0 then none
        else if k = mkB src0 then none
        else lookupKey g k := by
      intro k
      rw [p2 k, p1 (mkB src0), p1 k]
      rw [if_neg (nBA src0 tgt0), if_neg (nBA src0 src0)]
      by_cases h1 : k = mkA tgt0
      · subst h1; simp [nAB tgt0 tgt0, nAB tgt0 src0]
      · by_cases h2 : k = mkB tgt0
        · subst h2; simp [nBA tgt0 tgt0, Ne.symm nBts]
        · by_cases h3 : k = mkA src0
          · subst h3; simp [nAB src0 tgt0, nAB src0 src0, Ne.symm nAts]
          · by_cases h4 : k = mkB src0
            · subst h4; simp [nBA src0 tgt0, nBA src0 src0, Ne.symm nBts]
            · simp [h1, h2, h3, h4]
    have unchA : ∀ m : Int, tgt0 < m → m ≠ src0 →
        lookupKey g2 (mkA m) = lookupKey g (mkA m) := by
      intro m h1 h2
      rw [px (mkA m), if_neg (fun h => absurd (hA _ _ h) (by omega)),
        if_neg (nAB m tgt0), if_neg (fun h => absurd (hA _ _ h) h2),
        if_neg (nAB m src0)]
    have unchB : ∀ m : Int, tgt0 < m → m ≠ src0 →
        lookupKey g2 (mkB m) = lookupKey g (mkB m) := by
      intro m h1 h2
      rw [px (mkB m), if_neg (nBA m tgt0),
        if_neg (fun h => absurd (hB _ _ h) (by omega)), if_neg (nBA m src0),
        if_neg (fun h => absurd (hB _ _ h) h2)]
    have srcGoneA : lookupKey g2 (mkA src0) = none := by
      rw [px (mkA src0), if_neg (Ne.symm nAts), if_neg (nAB src0 tgt0), if_pos rfl]
    have srcGoneB : lookupKey g2 (mkB src0) = none := by
      rw [px (mkB src0), if_neg (nBA src0 tgt0), if_neg (Ne.symm nBts),
        if_neg (nBA src0 src0), if_pos rfl]
    have tgtGetA : lookupKey g2 (mkA tgt0) = lookupKey g (mkA src0) := by
      rw [px (mkA tgt0), if_pos rfl]
    have tgtGetB : lookupKey g2 (mkB tgt0) = lookupKey g (mkB src0) := by
      rw [px (mkB tgt0), if_neg (nBA tgt0 tgt0), if_pos rfl]
    have ecast : ∀ (x : Int) (j : Nat), x + ((j + 1 : Nat) : Int) = x + 1 + (j : Int) := by
      intro x j; push_cast; ring
    have hsrc' : ∀ j : Nat, j < c →
        (lookupKey g2 (mkA (src0 + 1 + j))).isSome ∧
        (lookupKey g2 (mkB (src0 + 1 + j))).isSome := by
      intro j hj
      have hs := hsrc (j + 1) (by omega)
      rw [ecast src0 j] at hs
      rw [unchA (src0 + 1 + j) (by omega) (by omega),
        unchB (src0 + 1 + j) (by omega) (by omega)]
      exact hs
    have htgt' : ∀ j : Nat, j < c → tgt0 + 1 + j < src0 + 1 →
        lookupKey g2 (mkA (tgt0 + 1 + j)) = none ∧
        lookupKey g2 (mkB (tgt0 + 1 + j)) = none := by
      intro j hj hcond
      by_cases hs0' : tgt0 + 1 + (j : Int) = src0
      · rw [hs0']; exact ⟨srcGoneA, srcGoneB⟩
      · have ht := htgt (j + 1) (by omega) (by push_cast; omega)
        rw [ecast tgt0 j] at ht
        rw [unchA (tgt0 + 1 + j) (by omega) hs0',
          unchB (tgt0 + 1 + j) (by omega) hs0']
        exact ht
    obtain ⟨g', hrun, ihc1, ihc2, ihc3⟩ :=
      ih (src0 + 1) (tgt0 + 1) g2 (by omega) hsrc' htgt'
    refine ⟨g', ?_, ?_, ?_, ?_⟩
    · show runMoves g (shiftMoves mkA mkB src0 tgt0 (c + 1)) = (g', none)
      rw [shiftMoves, runMoves_cons_ok _ hg1, runMoves_cons_ok _ hg2]
      exact hrun
    · intro j hj
      cases j with
      | zero =>
        simp only [Nat.cast_zero, add_zero]
        have havoid : ∀ j' : Nat, j' < c →
            mkA tgt0 ≠ mkA (tgt0 + 1 + j') ∧ mkA tgt0 ≠ mkB (tgt0 + 1 + j') ∧
            mkA tgt0 ≠ mkA (src0 + 1 + j') ∧ mkA tgt0 ≠ mkB (src0 + 1 + j') := by
          intro j' hj'
          exact ⟨fun h => absurd (hA _ _ h) (by omega), nAB tgt0 _,
            fun h => absurd (hA _ _ h) (by omega), nAB tgt0 _⟩
        have havoidB : ∀ j' : Nat, j' < c →
            mkB tgt0 ≠ mkA (tgt0 + 1 + j') ∧ mkB tgt0 ≠ mkB (tgt0 + 1 + j') ∧
            mkB tgt0 ≠ mkA (src0 + 1 + j') ∧ mkB tgt0 ≠ mkB (src0 + 1 + j') := by
          intro j' hj'
          exact ⟨nBA tgt0 _, fun h => absurd (hB _ _ h) (by omega),
            nBA tgt0 _, fun h => absurd (hB _ _ h) (by omega)⟩
        rw [ihc3 (mkA tgt0) havoid, ihc3 (mkB tgt0) havoidB]
        exact ⟨tgtGetA, tgtGetB⟩
      | succ j' =>
        have hj' : j' < c := by omega
        have h1 := ihc1 j' hj'
        rw [ecast tgt0 j', ecast src0 j']
        rw [unchA (src0 + 1 + j') (by omega) (by omega),
          unchB (src0 + 1 + j') (by omega) (by omega)] at h1
        exact h1
    · intro j hj hcond
      cases j with
      | zero =>
        simp only [Nat.cast_zero, add_zero] at hcond ⊢
        have havoid : ∀ j' : Nat, j' < c →
            mkA src0 ≠ mkA (tgt0 + 1 + j') ∧ mkA src0 ≠ mkB (tgt0 + 1 + j') ∧
            mkA src0 ≠ mkA (src0 + 1 + j') ∧ mkA src0 ≠ mkB (src0 + 1 + j') := by
          intro j' hj'
          refine ⟨fun h => ?_, nAB src0 _, fun h => absurd (hA _ _ h) (by omega), nAB src0 _⟩
          have := hA _ _ h
          omega
        have havoidB : ∀ j' : Nat, j' < c →
            mkB src0 ≠ mkA (tgt0 + 1 + j') ∧ mkB src0 ≠ mkB (tgt0 + 1 + j') ∧
            mkB src0 ≠ mkA (src0 + 1 + j') ∧ mkB src0 ≠ mkB (src0 + 1 + j') := by
          intro j' hj'
          refine ⟨nBA src0 _, fun h => ?_, nBA src0 _, fun h => absurd (hB _ _ h) (by omega)⟩
          have := hB _ _ h
          omega
        rw [ihc3 (mkA src0) havoid, ihc3 (mkB src0) havoidB]
        exact ⟨srcGoneA, srcGoneB⟩
      | succ j' =>
        have hj' : j' < c := by omega
        have h2 := ihc2 j' hj' (by omega)
        rw [ecast src0 j']
        exact h2
    · intro k hk
      have hk' : ∀ j' : Nat, j' < c →
          k ≠ mkA (tgt0 + 1 + j') ∧ k ≠ mkB (tgt0 + 1 + j') ∧
          k ≠ mkA (src0 + 1 + j') ∧ k ≠ mkB (src0 + 1 + j') := by
        intro j' hj'
        have := hk (j' + 1) (by omega)
        rw [ecast tgt0 j', ecast src0 j'] at this
        exact this
      have hk0 := hk 0 (Nat.succ_pos c)
      simp only [Nat.cast_zero, add_zero] at hk0
      rw [ihc3 k hk', px k, if_neg hk0.1, if_neg hk0.2.1, if_neg hk0.2.2.1,
        if_neg hk0.2.2.2]

/-! ## Failure decomposition and phase plumbing -/

/-- A failing rename sequence = a successful prefix, whose final state is
kept, followed by the failing rename; nothing is rolled back. -/
theorem runMoves_error_split {α : Type} :
    ∀ (ms : List (Key × Key)) (g g' : H5Group α) (e : MoveError),
      runMoves g ms = (g', some e) →
      ∃ pre o n rest, ms = pre ++ (o, n) :: rest ∧
        runMoves g pre = (g', none) ∧ moveKey g' o n = Except.error e := by
  intro ms
  induction ms with
  | nil =>
    intro g g' e h
    simp [runMoves] at h
  | cons p rest ih =>
    obtain ⟨o, n⟩ := p
    intro g g' e h
    cases hm : moveKey g o n with
    | error e' =>
      rw [runMoves_cons_err rest hm] at h
      have h1 : g = g' := congrArg Prod.fst h
      have h2 : e' = e := Option.some.inj (congrArg Prod.snd h)
      subst h1; subst h2
      exact ⟨[], o, n, rest, rfl, rfl, hm⟩
    | ok g1 =>
      rw [runMoves_cons_ok rest hm] at h
      obtain ⟨pre, o', n', rest', heq, hrun, herr⟩ := ih g1 g' e h
      refine ⟨(o, n) :: pre, o', n', rest', by rw [heq]; rfl, ?_, herr⟩
      rw [runMoves_cons_ok pre hm]
      exact hrun

theorem fixGetPhase_frib {α β : Type} (c : Container α β) (emin emax : Int) :
    (fixGetPhase c emin emax).1.frib_evt = c.frib_evt := by
  unfold fixGetPhase
  by_cases h : emin ≠ 0
  · rw [if_pos h]
    rcases hr : runMoves c.get (getMoves emin emax) with ⟨g', err⟩
    cases err <;> simp
  · rw [if_neg h]

theorem fixGetPhase_zero {α β : Type} (c : Container α β) (emax : Int) :
    fixGetPhase c 0 emax = (c, none) := by
  unfold fixGetPhase
  simp

theorem fixGetPhase_ok {α β : Type} {c : Container α β} {emin emax : Int}
    {g' : H5Group α} (hne : emin ≠ 0)
    (h : runMoves c.get (getMoves emin emax) = (g', none)) :
    fixGetPhase c emin emax =
      ({ c with
          get := g'
          meta_data := (c.meta_data.set 0 0).set 2 (emax - emin) }, none) := by
  unfold fixGetPhase
  rw [if_pos hne, h]

theorem fixGetPhase_err {α β : Type} {c : Container α β} {emin emax : Int}
    {g' : H5Group α} {e : MoveError} (hne : emin ≠ 0)
    (h : runMoves c.get (getMoves emin emax) = (g', some e)) :
    fixGetPhase c emin emax = ({ c with get := g' }, some e) := by
  unfold fixGetPhase
  rw [if_pos hne, h]

theorem fribPhase_preserves {α β : Type} (c1 : Container α β) (r : Int) :
    (fribPhase c1 r).container.get = c1.get ∧
    (fribPhase c1 r).container.meta_data = c1.meta_data := by
  rcases hf : c1.frib_evt with _ | g
  · simp [fribPhase, hf]
  · by_cases hg : g.length = 0
    · simp [fribPhase, hf, hg]
    · simp only [fribPhase, hf]
      rw [if_neg hg]
      cases hp : probeFrib g r with
      | ok u => simp [fribAfterProbe]
      | error s =>
        simp only [fribAfterProbe, fribRepair]
        rcases hr : runMoves g (fribMoves r) with ⟨g', err⟩
        cases err <;> simp

theorem fix_event_numbers_eq {α β : Type} {c : Container α β} {emin emax : Int}
    (hm0 : c.meta_data[0]? = some emin) (hm2 : c.meta_data[2]? = some emax) :
    fix_event_numbers c =
      match fixGetPhase c emin emax with
      | (c1, some e) => ⟨c1, FixOutcome.getMoveError e⟩
      | (c1, none) => fribPhase c1 (emax - emin) := by
  unfold fix_event_numbers
  rw [hm0, hm2]

/-! ## Key constructor facts -/

theorem Key.data_inj : ∀ i j : Int, Key.data i = Key.data j → i = j := by
  intro i j h; injection h

theorem Key.header_inj : ∀ i j : Int, Key.header i = Key.header j → i = j := by
  intro i j h; injection h

theorem Key.k1903_inj : ∀ i j : Int, Key.k1903 i = Key.k1903 j → i = j := by
  intro i j h; injection h

theorem Key.data_ne_header : ∀ i j : Int, Key.data i ≠ Key.header j :=
  fun _ _ h => Key.noConfusion h

theorem Key.k1903_ne_header : ∀ i j : Int, Key.k1903 i ≠ Key.header j :=
  fun _ _ h => Key.noConfusion h

/-! ## Checker loop lemmas -/

theorem intCastSucc (x : Int) (j : Nat) :
    x + ((j + 1 : Nat) : Int) = x + 1 + (j : Int) := by
  push_cast; ring

theorem checkLoop_success {gg ff : H5Group (List Int)} {offset : Int} :
    ∀ (count : Nat) (ev : Int),
      (∀ j : Nat, j < count → ∃ gv fv, hdrVal gg (ev + j) 2 = some gv ∧
        hdrVal ff (ev + j) 1 = some fv ∧ gv - fv - offset ≤ 1) →
      checkLoop gg ff offset ev count = CheckResult.success := by
  intro count
  induction count with
  | zero => intro ev _; rfl
  | succ c ih =>
    intro ev h
    obtain ⟨gv, fv, hg, hf, hle⟩ := h 0 (Nat.succ_pos c)
    simp only [Nat.cast_zero, add_zero] at hg hf
    rw [checkLoop]
    simp only [hg, hf]
    rw [if_neg (show ¬(gv - fv - offset > 1) by omega)]
    apply ih
    intro j hj
    obtain ⟨gv', fv', hg', hf', hle'⟩ := h (j + 1) (by omega)
    rw [intCastSucc ev j] at hg' hf'
    exact ⟨gv', fv', hg', hf', hle'⟩

theorem checkLoop_mismatch {gg ff : H5Group (List Int)} {offset : Int} :
    ∀ (count : Nat) (ev : Int) (j0 : Nat) (gv fv : Int),
      j0 < count →
      hdrVal gg (ev + j0) 2 = some gv →
      hdrVal ff (ev + j0) 1 = some fv →
      gv - fv - offset > 1 →
      (∀ i : Nat, i < j0 → ∃ gv' fv', hdrVal gg (ev + i) 2 = some gv' ∧
        hdrVal ff (ev + i) 1 = some fv' ∧ gv' - fv' - offset ≤ 1) →
      checkLoop gg ff offset ev count = CheckResult.mismatch (ev + j0) (gv - fv) gv fv := by
  intro count
  induction count with
  | zero =>
    intro ev j0 gv fv hj0 _ _ _ _
    exact absurd hj0 (Nat.not_lt_zero j0)
  | succ c ih =>
    intro ev j0 gv fv hj0 hg hf hgt hbefore
    cases j0 with
    | zero =>
      simp only [Nat.cast_zero, add_zero] at hg hf ⊢
      rw [checkLoop]
      simp only [hg, hf]
      rw [if_pos hgt]
    | succ j0' =>
      obtain ⟨gv0, fv0, hg0, hf0, hle0⟩ := hbefore 0 (Nat.succ_pos j0')
      simp only [Nat.cast_zero, add_zero] at hg0 hf0
      rw [checkLoop]
      simp only [hg0, hf0]
      rw [if_neg (show ¬(gv0 - fv0 - offset > 1) by omega)]
      have hg' := hg
      have hf' := hf
      rw [intCastSucc ev j0'] at hg' hf'
      have hbefore' : ∀ i : Nat, i < j0' →
          ∃ gv' fv', hdrVal gg (ev + 1 + i) 2 = some gv' ∧
            hdrVal ff (ev + 1 + i) 1 = some fv' ∧ gv' - fv' - offset ≤ 1 := by
        intro i hi
        obtain ⟨a, b, ha, hb, hab⟩ := hbefore (i + 1) (by omega)
        rw [intCastSucc ev i] at ha hb
        exact ⟨a, b, ha, hb, hab⟩
      have hres := ih (ev + 1) j0' gv fv (by omega) hg' hf' hgt hbefore'
      rw [intCastSucc ev j0']
      exact hres

theorem checkLoop_success_bound {gg ff : H5Group (List Int)} {offset : Int} :
    ∀ (count : Nat) (ev : Int),
      checkLoop gg ff offset ev count = CheckResult.success →
      ∀ j : Nat, j < count → ∀ gv fv, hdrVal gg (ev + j) 2 = some gv →
        hdrVal ff (ev + j) 1 = some fv → gv - fv - offset ≤ 1 := by
  intro count
  induction count with
  | zero =>
    intro ev _ j hj
    exact absurd hj (Nat.not_lt_zero j)
  | succ c ih =>
    intro ev h j hj gv fv hg hf
    rw [checkLoop] at h
    cases hg0 : hdrVal gg ev 2 with
    | none =>
      simp only [hg0] at h
      exact CheckResult.noConfusion h
    | some gv0 =>
      cases hf0 : hdrVal ff ev 1 with
      | none =>
        simp only [hg0, hf0] at h
        exact CheckResult.noConfusion h
      | some fv0 =>
        simp only [hg0, hf0] at h
        by_cases hb : gv0 - fv0 - offset > 1
        · rw [if_pos hb] at h
          exact CheckResult.noConfusion h
        · rw [if_neg hb] at h
          cases j with
          | zero =>
            simp only [Nat.cast_zero, add_zero] at hg hf
            rw [hg0] at hg
            rw [hf0] at hf
            have e1 : gv0 = gv := Option.some.inj hg
            have e2 : fv0 = fv := Option.some.inj hf
            omega
          | succ j' =>
            rw [intCastSucc ev j'] at hg hf
            exact ih (ev + 1) h j' (by omega) gv fv hg hf

theorem check_timestamps_eq {c : CheckContainer} {emin emax g0 f0 : Int}
    (hm0 : c.meta_data[0]? = some emin) (hm2 : c.meta_data[2]? = some emax)
    (hg0 : hdrVal c.get emin 2 = some g0)
    (hf0 : hdrVal c.frib_evt emin 1 = some f0) :
    check_timestamps c =
      checkLoop c.get c.frib_evt (g0 - f0) emin (emax - emin).toNat := by
  unfold check_timestamps
  simp only [hm0, hm2, hg0, hf0]

/-! ## Claims -/

/-- C1: for every container whose metadata has `event_min != 0` (event
numbers being nonnegative), the GET repair renames, for `idx, event`
enumerating `range(event_min, event_max + 1)` inclusive of both ends,
`evt{event}_data` to `evt{idx}_data` and `evt{event}_header` to
`evt{idx}_header`, and afterwards sets `meta_data[0] = 0` and
`meta_data[2] = event_max - event_min`: the repaired group holds at index
`idx` the records formerly at `event_min + idx`, entries above the new
range are gone, and all unrelated keys are untouched. -/
theorem getRepair_correct {α β : Type} (c : Container α β) (emin emax : Int)
    (hm0 : c.meta_data[0]? = some emin) (hm2 : c.meta_data[2]? = some emax)
    (hne : emin ≠ 0) (hnonneg : 0 ≤ emin)
    (hsrc : ∀ j : Nat, j < (emax + 1 - emin).toNat →
      (lookupKey c.get (Key.data (emin + j))).isSome ∧
      (lookupKey c.get (Key.header (emin + j))).isSome)
    (htgt : ∀ j : Nat, j < (emax + 1 - emin).toNat → (j : Int) < emin →
      lookupKey c.get (Key.data j) = none ∧
      lookupKey c.get (Key.header j) = none) :
    (fix_event_numbers c).container.meta_data =
      (c.meta_data.set 0 0).set 2 (emax - emin) ∧
    (∀ j : Nat, j < (emax + 1 - emin).toNat →
      lookupKey (fix_event_numbers c).container.get (Key.data j) =
        lookupKey c.get (Key.data (emin + j)) ∧
      lookupKey (fix_event_numbers c).container.get (Key.header j) =
        lookupKey c.get (Key.header (emin + j))) ∧
    (∀ j : Nat, j < (emax + 1 - emin).toNat → emax + 1 - emin ≤ emin + j →
      lookupKey (fix_event_numbers c).container.get (Key.data (emin + j)) = none ∧
      lookupKey (fix_event_numbers c).container.get (Key.header (emin + j)) = none) ∧
    (∀ k : Key,
      (∀ j : Nat, j < (emax + 1 - emin).toNat →
        k ≠ Key.data j ∧ k ≠ Key.header j ∧
        k ≠ Key.data (emin + j) ∧ k ≠ Key.header (emin + j)) →
      lookupKey (fix_event_numbers c).container.get k = lookupKey c.get k) := by
  have hlt : (0 : Int) < emin := lt_of_le_of_ne hnonneg (Ne.symm hne)
  obtain ⟨g', hrun, sc1, sc2, sc3⟩ :=
    runMoves_shift Key.data Key.header Key.data_inj Key.header_inj
      Key.data_ne_header ((emax + 1 - emin).toNat) emin 0 c.get hlt hsrc
      (by
        intro j hj hc
        rw [zero_add]
        exact htgt j hj (by omega))
  have hfix : fix_event_numbers c =
      fribPhase
        ({ c with
            get := g'
            meta_data := (c.meta_data.set 0 0).set 2 (emax - emin) })
        (emax - emin) := by
    rw [fix_event_numbers_eq hm0 hm2, fixGetPhase_ok hne hrun]
  have hget : (fix_event_numbers c).container.get = g' := by
    rw [hfix]
    exact (fribPhase_preserves _ _).1
  have hmeta : (fix_event_numbers c).container.meta_data =
      (c.meta_data.set 0 0).set 2 (emax - emin) := by
    rw [hfix]
    exact (fribPhase_preserves _ _).2
  refine ⟨hmeta, ?_, ?_, ?_⟩
  · intro j hj
    have h := sc1 j hj
    rw [zero_add] at h
    rw [hget]
    exact h
  · intro j hj hc
    rw [hget]
    exact sc2 j hj (by omega)
  · intro k hk
    rw [hget]
    refine sc3 k ?_
    intro j hj
    have h := hk j hj
    rw [zero_add]
    exact h

/-- A `get` group with events 5..10 and `meta_data = [5, 99, 10]`, as in the
spec's offset-correction example; record values encode their origin. -/
def getRepairExample : Container Int Int :=
  { meta_data := [5, 99, 10]
    get := [(Key.data 5, 105), (Key.header 5, 205), (Key.data 6, 106),
            (Key.header 6, 206), (Key.data 7, 107), (Key.header 7, 207),
            (Key.data 8, 108), (Key.header 8, 208), (Key.data 9, 109),
            (Key.header 9, 209), (Key.data 10, 110), (Key.header 10, 210)]
    frib_evt := none }

theorem getRepair_correct_witness :
    (fix_event_numbers getRepairExample).container.meta_data = [0, 99, 5] ∧
    lookupKey (fix_event_numbers getRepairExample).container.get (Key.data 0) =
      some 105 ∧
    lookupKey (fix_event_numbers getRepairExample).container.get (Key.data 5) =
      some 110 ∧
    lookupKey (fix_event_numbers getRepairExample).container.get (Key.data 10) =
      none := by
  have h := getRepair_correct getRepairExample 5 10 rfl rfl (by decide)
    (by decide) (by decide) (by decide)
  refine ⟨by rw [h.1]; rfl, ?_, ?_, ?_⟩
  · have h20 := (h.2.1 0 (by decide)).1
    norm_num at h20
    rw [h20]
    decide
  · have h25 := (h.2.1 5 (by decide)).1
    norm_num at h25
    rw [h25]
    decide
  · have h30 := (h.2.2.1 5 (by decide) (by decide)).1
    norm_num at h30
    exact h30

/-- C8: rename-order safety.  For the ascending GET offset repair (where
`idx <= event` because `event_min > 0`) and the ascending FRIB shift-by-one
repair, under the stated preconditions (contiguous keys
`event_min..event_max` for `get`, keys `1..event_range+1` for `frib`) no
rename ever targets a key that still holds not-yet-renamed data: both loops
run to completion with no error, and `moveKey` errors whenever its target
key is present, so every executed rename found its target absent. -/
theorem renameOrder_safe {α β : Type} (gget : H5Group α) (gfrib : H5Group β)
    (emin emax event_range : Int) (hemin : 0 < emin) (_hrange : 0 ≤ event_range)
    (hsrcg : ∀ j : Nat, j < (emax + 1 - emin).toNat →
      (lookupKey gget (Key.data (emin + j))).isSome ∧
      (lookupKey gget (Key.header (emin + j))).isSome)
    (htgtg : ∀ j : Nat, j < (emax + 1 - emin).toNat → (j : Int) < emin →
      lookupKey gget (Key.data j) = none ∧ lookupKey gget (Key.header j) = none)
    (hsrcf : ∀ j : Nat, j < (event_range + 1).toNat →
      (lookupKey gfrib (Key.k1903 (1 + j))).isSome ∧
      (lookupKey gfrib (Key.header (1 + j))).isSome)
    (htgtf0 : lookupKey gfrib (Key.k1903 0) = none)
    (htgtf0h : lookupKey gfrib (Key.header 0) = none) :
    (runMoves gget (getMoves emin emax)).2 = none ∧
    (runMoves gfrib (fribMoves event_range)).2 = none := by
  constructor
  · obtain ⟨g', hrun, -, -, -⟩ :=
      runMoves_shift Key.data Key.header Key.data_inj Key.header_inj
        Key.data_ne_header ((emax + 1 - emin).toNat) emin 0 gget hemin hsrcg
        (by
          intro j hj hc
          rw [zero_add]
          exact htgtg j hj (by omega))
    rw [getMoves, hrun]
  · obtain ⟨g', hrun, -, -, -⟩ :=
      runMoves_shift Key.k1903 Key.header Key.k1903_inj Key.header_inj
        Key.k1903_ne_header ((event_range + 1).toNat) 1 0 gfrib (by omega) hsrcf
        (by
          intro j hj hc
          have hj0 : j = 0 := by omega
          subst hj0
          simp only [Nat.cast_zero, add_zero, zero_add]
          exact ⟨htgtf0, htgtf0h⟩)
    rw [fribMoves, hrun]

/-- Boundary case `event_range == 0` for the GET loop: one event at 1. -/
def safeGetExample : H5Group Int := [(Key.data 1, 11), (Key.header 1, 21)]

/-- Boundary case `event_range == 0` for the FRIB loop: one event at 1. -/
def safeFribExample : H5Group Int := [(Key.k1903 1, 31), (Key.header 1, 41)]

theorem renameOrder_safe_witness :
    (runMoves safeGetExample (getMoves 1 1)).2 = none ∧
    (runMoves safeFribExample (fribMoves 0)).2 = none :=
  renameOrder_safe safeGetExample safeFribExample 1 1 0 (by decide) (by decide)
    (by decide) (by decide) (by decide) (by decide) (by decide)

/-- C6: for every container whose metadata has `event_min == 0`, the
tracking-stream repair is a no-op: the `get` group and the metadata record
are left unchanged by `fix_event_numbers`. -/
theorem getSkip_noop {α β : Type} (c : Container α β)
    (hm0 : c.meta_data[0]? = some 0) :
    (fix_event_numbers c).container.get = c.get ∧
    (fix_event_numbers c).container.meta_data = c.meta_data := by
  cases hm2 : c.meta_data[2]? with
  | none =>
    have hfix : fix_event_numbers c = ⟨c, FixOutcome.accessError⟩ := by
      unfold fix_event_numbers
      rw [hm0, hm2]
    rw [hfix]
    exact ⟨rfl, rfl⟩
  | some emax =>
    have hfix : fix_event_numbers c = fribPhase c (emax - 0) := by
      rw [fix_event_numbers_eq hm0 hm2, fixGetPhase_zero]
    rw [hfix]
    exact fribPhase_preserves c (emax - 0)

/-- A container with `event_min = 0` whose FRIB stream does need (and get)
the shift repair, showing the `get` group and metadata stay untouched. -/
def getSkipExample : Container Int Int :=
  { meta_data := [0, 1, 2]
    get := [(Key.data 0, 7), (Key.header 0, 8)]
    frib_evt := some [(Key.k1903 1, 1), (Key.header 1, 2), (Key.k1903 2, 3),
                      (Key.header 2, 4), (Key.k1903 3, 5), (Key.header 3, 6)] }

theorem getSkip_noop_witness :
    (fix_event_numbers getSkipExample).container.get =
      [(Key.data 0, 7), (Key.header 0, 8)] ∧
    (fix_event_numbers getSkipExample).container.meta_data = [0, 1, 2] := by
  have h := getSkip_noop getSkipExample rfl
  exact ⟨by rw [h.1]; rfl, by rw [h.2]; rfl⟩

/-- C7: when the `frib` group or its `evt` subgroup is absent, or the `evt`
subgroup has zero entries, the repair ends with the "no FRIBDAQ data"
outcome and the container is exactly the GET-phase output: the skip changes
no `get` key and no metadata value, and raises nothing. -/
theorem noFrib_skip {α β : Type} (c : Container α β) (emin emax : Int)
    (c1 : Container α β)
    (hm0 : c.meta_data[0]? = some emin) (hm2 : c.meta_data[2]? = some emax)
    (hp : fixGetPhase c emin emax = (c1, none))
    (hmiss : c1.frib_evt = none ∨ c1.frib_evt = some ([] : H5Group β)) :
    fix_event_numbers c = ⟨c1, FixOutcome.noFrib⟩ := by
  have hfix : fix_event_numbers c = fribPhase c1 (emax - emin) := by
    rw [fix_event_numbers_eq hm0 hm2, hp]
  rw [hfix]
  rcases hmiss with h | h
  · simp [fribPhase, h]
  · simp [fribPhase, h]

/-- The GET repair of `getRepairExample` followed by the missing-FRIB skip:
its exact expected final state. -/
def noFribRepaired : Container Int Int :=
  { meta_data := [0, 99, 5]
    get := [(Key.data 0, 105), (Key.header 0, 205), (Key.data 1, 106),
            (Key.header 1, 206), (Key.data 2, 107), (Key.header 2, 207),
            (Key.data 3, 108), (Key.header 3, 208), (Key.data 4, 109),
            (Key.header 4, 209), (Key.data 5, 110), (Key.header 5, 210)]
    frib_evt := none }

theorem noFrib_skip_witness :
    fix_event_numbers getRepairExample = ⟨noFribRepaired, FixOutcome.noFrib⟩ :=
  noFrib_skip getRepairExample 5 10 noFribRepaired rfl rfl (by decide)
    (Or.inl rfl)

/-- C5: a `frib/evt` group already containing `evt0_1903` and
`evt{event_range}_1903` — with `event_range = event_max - event_min`
computed from the original, pre-repair metadata — is left entirely
unchanged by the repair. -/
theorem fribSkip_untouched {α β : Type} (c : Container α β) (emin emax : Int)
    (fg : H5Group β)
    (hm0 : c.meta_data[0]? = some emin) (hm2 : c.meta_data[2]? = some emax)
    (hfg : c.frib_evt = some fg)
    (h0 : (lookupKey fg (Key.k1903 0)).isSome)
    (hE : (lookupKey fg (Key.k1903 (emax - emin))).isSome) :
    (fix_event_numbers c).container.frib_evt = some fg := by
  rcases hp : fixGetPhase c emin emax with ⟨c1, err⟩
  have hfe : c1.frib_evt = some fg := by
    have hh := fixGetPhase_frib c emin emax
    rw [hp] at hh
    rw [← hfg]
    exact hh
  cases err with
  | some e =>
    have hfix : fix_event_numbers c = ⟨c1, FixOutcome.getMoveError e⟩ := by
      rw [fix_event_numbers_eq hm0 hm2, hp]
    rw [hfix]
    exact hfe
  | none =>
    have hfix : fix_event_numbers c = fribPhase c1 (emax - emin) := by
      rw [fix_event_numbers_eq hm0 hm2, hp]
    obtain ⟨v0, hv0⟩ := Option.isSome_iff_exists.mp h0
    obtain ⟨vE, hvE⟩ := Option.isSome_iff_exists.mp hE
    have hlen : ¬ fg.length = 0 := by
      intro h0l
      have hnil : fg = [] := List.length_eq_zero.mp h0l
      rw [hnil] at hv0
      exact Option.noConfusion hv0
    have hprobe : probeFrib fg (emax - emin) = Except.ok () := by
      unfold probeFrib
      rw [hv0, hvE]
    rw [hfix]
    simp only [fribPhase, hfe]
    rw [if_neg hlen, hprobe]
    simp only [fribAfterProbe]
    exact hfe

/-- A container whose `frib/evt` group holds both probe keys for
`event_range = 2 - 0`; repair must leave it untouched. -/
def fribSkipExample : Container Int Int :=
  { meta_data := [0, 9, 2]
    get := []
    frib_evt := some [(Key.k1903 0, 1), (Key.header 0, 2), (Key.k1903 2, 3)] }

theorem fribSkip_untouched_witness :
    (fix_event_numbers fribSkipExample).container.frib_evt =
      some [(Key.k1903 0, 1), (Key.header 0, 2), (Key.k1903 2, 3)] :=
  fribSkip_untouched fribSkipExample 0 2 _ rfl rfl rfl (by decide) (by decide)

/-- C2: a `frib/evt` group that needs repair (no `evt0_1903`), holding
keys `evt1_1903..evt{R+1}_1903` and matching headers for
`R = event_range`, is repaired by the ascending shift-by-one loop: for
`event in range(0, event_range + 1)`, `evt{event+1}_1903` moves to
`evt{event}_1903` and `evt{event+1}_header` to `evt{event}_header`; the
result has keys `evt0_1903..evt{R}_1903`, no key `evt{R+1}_1903` or
`evt{R+1}_header` remains, and unrelated keys are untouched. -/
theorem fribShift_correct {α β : Type} (c : Container α β) (emin emax : Int)
    (fg : H5Group β)
    (hm0 : c.meta_data[0]? = some emin) (hm2 : c.meta_data[2]? = some emax)
    (hok : (fixGetPhase c emin emax).2 = none)
    (hfg : c.frib_evt = some fg)
    (hR : 0 ≤ emax - emin)
    (hsrc : ∀ j : Nat, j < (emax - emin + 1).toNat →
      (lookupKey fg (Key.k1903 (1 + j))).isSome ∧
      (lookupKey fg (Key.header (1 + j))).isSome)
    (htgt0 : lookupKey fg (Key.k1903 0) = none)
    (htgt0h : lookupKey fg (Key.header 0) = none) :
    (fix_event_numbers c).outcome = FixOutcome.fixed ∧
    ∃ g', (fix_event_numbers c).container.frib_evt = some g' ∧
      (∀ j : Nat, j < (emax - emin + 1).toNat →
        lookupKey g' (Key.k1903 j) = lookupKey fg (Key.k1903 (1 + j)) ∧
        lookupKey g' (Key.header j) = lookupKey fg (Key.header (1 + j))) ∧
      lookupKey g' (Key.k1903 (emax - emin + 1)) = none ∧
      lookupKey g' (Key.header (emax - emin + 1)) = none ∧
      (∀ k : Key,
        (∀ j : Nat, j < (emax - emin + 1).toNat →
          k ≠ Key.k1903 j ∧ k ≠ Key.header j ∧
          k ≠ Key.k1903 (1 + j) ∧ k ≠ Key.header (1 + j)) →
        lookupKey g' k = lookupKey fg k) := by
  rcases hp : fixGetPhase c emin emax with ⟨c1, err⟩
  rw [hp] at hok
  have herr : err = none := hok
  subst herr
  have hfe : c1.frib_evt = some fg := by
    have hh := fixGetPhase_frib c emin emax
    rw [hp] at hh
    rw [← hfg]
    exact hh
  obtain ⟨g', hrun, sc1, sc2, sc3⟩ :=
    runMoves_shift Key.k1903 Key.header Key.k1903_inj Key.header_inj
      Key.k1903_ne_header ((emax - emin + 1).toNat) 1 0 fg (by omega) hsrc
      (by
        intro j hj hc
        have hj0 : j = 0 := by omega
        subst hj0
        simp only [Nat.cast_zero, add_zero, zero_add]
        exact ⟨htgt0, htgt0h⟩)
  have hlen : ¬ fg.length = 0 := by
    have h1 := (hsrc 0 (by omega)).1
    intro h0l
    have hnil : fg = [] := List.length_eq_zero.mp h0l
    rw [hnil] at h1
    simp [lookupKey] at h1
  have hprobe : probeFrib fg (emax - emin) =
      Except.error "KeyError evt0_1903" := by
    unfold probeFrib
    rw [htgt0]
  have hfix : fix_event_numbers c =
      ⟨{ c1 with frib_evt := some g' }, FixOutcome.fixed⟩ := by
    rw [fix_event_numbers_eq hm0 hm2, hp]
    simp only [fribPhase, hfe]
    rw [if_neg hlen, hprobe]
    simp only [fribAfterProbe, fribRepair]
    rw [fribMoves, hrun]
  have hgone := sc2 ((emax - emin + 1).toNat - 1) (by omega) (by omega)
  have hcast : (1 : Int) + (((emax - emin + 1).toNat - 1 : Nat) : Int) =
      emax - emin + 1 := by omega
  rw [hcast] at hgone
  rw [hfix]
  refine ⟨rfl, g', rfl, ?_, hgone.1, hgone.2, ?_⟩
  · intro j hj
    have h := sc1 j hj
    rw [zero_add] at h
    exact h
  · intro k hk
    refine sc3 k ?_
    intro j hj
    have h := hk j hj
    rw [zero_add]
    exact h

theorem fribShift_correct_witness :
    (fix_event_numbers getSkipExample).outcome = FixOutcome.fixed ∧
    ((fix_event_numbers getSkipExample).container.frib_evt.bind
      (fun g => lookupKey g (Key.k1903 0))) = some 1 ∧
    ((fix_event_numbers getSkipExample).container.frib_evt.bind
      (fun g => lookupKey g (Key.k1903 3))) = none := by
  obtain ⟨ho, g', hg', h1, h2, h3, h4⟩ :=
    fribShift_correct getSkipExample 0 2 _ rfl rfl (by decide) rfl (by decide)
      (by decide) (by decide) (by decide)
  refine ⟨ho, ?_, ?_⟩
  · rw [hg']
    show lookupKey g' (Key.k1903 0) = some 1
    have h10 := (h1 0 (by decide)).1
    norm_num at h10
    rw [h10]
    decide
  · rw [hg']
    show lookupKey g' (Key.k1903 3) = none
    norm_num at h2
    exact h2

/-- C9: if a rename fails because its old key is absent
(`KeyNotFoundError`), the run aborts with that error as its outcome, no
rollback is attempted, and every rename already performed stays in effect:
the final group is exactly the state reached by the successful prefix of
the rename list, the failing rename's source being absent there.  For the
GET loop the metadata is also left unrewritten and the FRIB stream is never
touched; for the FRIB loop the GET-phase result is kept. -/
theorem renameFailure_aborts {α β : Type} (c : Container α β) (emin emax : Int)
    (hm0 : c.meta_data[0]? = some emin) (hm2 : c.meta_data[2]? = some emax) :
    (∀ g' : H5Group α, emin ≠ 0 →
      runMoves c.get (getMoves emin emax) = (g', some MoveError.keyNotFound) →
      (fix_event_numbers c).outcome =
        FixOutcome.getMoveError MoveError.keyNotFound ∧
      (fix_event_numbers c).container.get = g' ∧
      (fix_event_numbers c).container.meta_data = c.meta_data ∧
      (fix_event_numbers c).container.frib_evt = c.frib_evt ∧
      ∃ pre o n rest, getMoves emin emax = pre ++ (o, n) :: rest ∧
        runMoves c.get pre = (g', none) ∧ lookupKey g' o = none) ∧
    (∀ (c1 : Container α β) (fg g' : H5Group β) (s : String),
      fixGetPhase c emin emax = (c1, none) →
      c1.frib_evt = some fg → ¬ fg.length = 0 →
      probeFrib fg (emax - emin) = Except.error s →
      runMoves fg (fribMoves (emax - emin)) = (g', some MoveError.keyNotFound) →
      (fix_event_numbers c).outcome =
        FixOutcome.fribMoveError MoveError.keyNotFound ∧
      (fix_event_numbers c).container = { c1 with frib_evt := some g' } ∧
      ∃ pre o n rest, fribMoves (emax - emin) = pre ++ (o, n) :: rest ∧
        runMoves fg pre = (g', none) ∧ lookupKey g' o = none) := by
  constructor
  · intro g' hne hrun
    have hfix : fix_event_numbers c =
        ⟨{ c with get := g' },
          FixOutcome.getMoveError MoveError.keyNotFound⟩ := by
      rw [fix_event_numbers_eq hm0 hm2, fixGetPhase_err hne hrun]
    obtain ⟨pre, o, n, rest, heq, hpre, herr⟩ :=
      runMoves_error_split (getMoves emin emax) c.get g'
        MoveError.keyNotFound hrun
    rw [hfix]
    exact ⟨rfl, rfl, rfl, rfl, pre, o, n, rest, heq, hpre,
      (moveKey_keyNotFound_iff g' o n).mp herr⟩
  · intro c1 fg g' s hp hfe hlen hprobe hrun
    have hfix : fix_event_numbers c =
        ⟨{ c1 with frib_evt := some g' },
          FixOutcome.fribMoveError MoveError.keyNotFound⟩ := by
      rw [fix_event_numbers_eq hm0 hm2, hp]
      simp only [fribPhase, hfe]
      rw [if_neg hlen, hprobe]
      simp only [fribAfterProbe, fribRepair]
      rw [hrun]
    obtain ⟨pre, o, n, rest, heq, hpre, herr⟩ :=
      runMoves_error_split (fribMoves (emax - emin)) fg g'
        MoveError.keyNotFound hrun
    rw [hfix]
    exact ⟨rfl, rfl, pre, o, n, rest, heq, hpre,
      (moveKey_keyNotFound_iff g' o n).mp herr⟩

/-- A container whose metadata promises events 2..3 but whose `get` group
lacks `evt3_data`: the second loop iteration's rename raises. -/
def renameFailExample : Container Int Int :=
  { meta_data := [2, 0, 3]
    get := [(Key.data 2, 12), (Key.header 2, 22)]
    frib_evt := none }

theorem renameFailure_aborts_witness :
    (fix_event_numbers renameFailExample).outcome =
      FixOutcome.getMoveError MoveError.keyNotFound ∧
    (fix_event_numbers renameFailExample).container.get =
      [(Key.data 0, 12), (Key.header 0, 22)] ∧
    (fix_event_numbers renameFailExample).container.meta_data = [2, 0, 3] := by
  have h := (renameFailure_aborts renameFailExample 2 3 rfl rfl).1
    [(Key.data 0, 12), (Key.header 0, 22)] (by decide) (by decide)
  exact ⟨h.1, h.2.1, h.2.2.1⟩

/-- C10: the `try/except: pass` around the FRIB skip probe catches every
exception value, of any exception type, and falls through to the
shift-by-one repair; no probe failure can surface to the caller, whose
result is exactly the repair branch (and the skip branch exactly when the
probe body completes). -/
theorem probeFailure_falls_through {α β : Type} (c : Container α β)
    (emin emax : Int)
    (hm0 : c.meta_data[0]? = some emin) (hm2 : c.meta_data[2]? = some emax) :
    (∀ (ε ρ : Type) (e : ε) (skip rep : ρ),
      fribAfterProbe (Except.error e) skip rep = rep) ∧
    (∀ (c1 : Container α β) (fg : H5Group β) (s : String),
      fixGetPhase c emin emax = (c1, none) → c1.frib_evt = some fg →
      ¬ fg.length = 0 → probeFrib fg (emax - emin) = Except.error s →
      fix_event_numbers c = fribRepair c1 fg (emax - emin)) ∧
    (∀ (c1 : Container α β) (fg : H5Group β),
      fixGetPhase c emin emax = (c1, none) → c1.frib_evt = some fg →
      ¬ fg.length = 0 → probeFrib fg (emax - emin) = Except.ok () →
      fix_event_numbers c = ⟨c1, FixOutcome.fribOk⟩) := by
  refine ⟨fun ε ρ e skip rep => rfl, ?_, ?_⟩
  · intro c1 fg s hp hfe hlen hprobe
    rw [fix_event_numbers_eq hm0 hm2, hp]
    simp only [fribPhase, hfe]
    rw [if_neg hlen, hprobe]
    rfl
  · intro c1 fg hp hfe hlen hprobe
    rw [fix_event_numbers_eq hm0 hm2, hp]
    simp only [fribPhase, hfe]
    rw [if_neg hlen, hprobe]
    rfl

theorem probeFailure_falls_through_witness :
    fix_event_numbers getSkipExample =
      fribRepair getSkipExample
        [(Key.k1903 1, 1), (Key.header 1, 2), (Key.k1903 2, 3),
         (Key.header 2, 4), (Key.k1903 3, 5), (Key.header 3, 6)]
        (2 - 0) := by
  have h := (probeFailure_falls_through getSkipExample 0 2 rfl rfl).2.1
    getSkipExample _ "KeyError evt0_1903" (by decide) rfl (by decide) (by rfl)
  exact h

/-- C4: the checker scans `range(event_min, event_max)` ascending with
`this_offset = int(get_header[event][2]) - int(frib_header[event][1])`; at
the first index with `this_offset - offset > 1` it reports a mismatch
naming that index, the offset and the two raw values, and stops
immediately, regardless of later indices; if no index in the range fails
the test it reports success. -/
theorem checker_first_mismatch (c : CheckContainer) (emin emax g0 f0 : Int)
    (G F : Nat → Int)
    (hm0 : c.meta_data[0]? = some emin) (hm2 : c.meta_data[2]? = some emax)
    (hg0 : hdrVal c.get emin 2 = some g0)
    (hf0 : hdrVal c.frib_evt emin 1 = some f0)
    (hG : ∀ j : Nat, j < (emax - emin).toNat →
      hdrVal c.get (emin + j) 2 = some (G j))
    (hF : ∀ j : Nat, j < (emax - emin).toNat →
      hdrVal c.frib_evt (emin + j) 1 = some (F j)) :
    ((∀ j : Nat, j < (emax - emin).toNat → ¬(G j - F j - (g0 - f0) > 1)) →
      check_timestamps c = CheckResult.success) ∧
    (∀ j0 : Nat, j0 < (emax - emin).toNat → G j0 - F j0 - (g0 - f0) > 1 →
      (∀ i : Nat, i < j0 → ¬(G i - F i - (g0 - f0) > 1)) →
      check_timestamps c =
        CheckResult.mismatch (emin + j0) (G j0 - F j0) (G j0) (F j0)) := by
  constructor
  · intro hgood
    rw [check_timestamps_eq hm0 hm2 hg0 hf0]
    apply checkLoop_success
    intro j hj
    refine ⟨G j, F j, hG j hj, hF j hj, ?_⟩
    have := hgood j hj
    omega
  · intro j0 hj0 hbad hgood
    rw [check_timestamps_eq hm0 hm2 hg0 hf0]
    refine checkLoop_mismatch ((emax - emin).toNat) emin j0 (G j0) (F j0) hj0
      (hG j0 hj0) (hF j0 hj0) hbad ?_
    intro i hi
    refine ⟨G i, F i, hG i (by omega), hF i (by omega), ?_⟩
    have := hgood i hi
    omega

/-- Reference offset 100 at index 0; index 1 has offset 103 (delta 3 > 1)
and index 2 offset 200 is also mismatched but must not be reported. -/
def checkMismatchExample : CheckContainer :=
  { meta_data := [0, 0, 3]
    get := [(Key.header 0, [0, 0, 100]), (Key.header 1, [0, 0, 103]),
            (Key.header 2, [0, 0, 200])]
    frib_evt := [(Key.header 0, [0, 0]), (Key.header 1, [0, 0]),
                 (Key.header 2, [0, 0])] }

theorem checker_first_mismatch_witness :
    check_timestamps checkMismatchExample = CheckResult.mismatch 1 103 103 0 := by
  have h := (checker_first_mismatch checkMismatchExample 0 3 100 0
      (fun j => if j = 0 then 100 else if j = 1 then 103 else 200)
      (fun _ => 0)
      rfl rfl (by decide) (by decide) (by decide) (by decide)).2
      1 (by decide) (by decide) (by decide)
  norm_num at h
  exact h

/-- Reference offset 100 at index 0; index 1 drifts down to 90, a
two-sided deviation of 10, which the one-sided check accepts. -/
def checkDriftExample : CheckContainer :=
  { meta_data := [0, 0, 2]
    get := [(Key.header 0, [0, 0, 100]), (Key.header 1, [0, 0, 90])]
    frib_evt := [(Key.header 0, [0, 0]), (Key.header 1, [0, 0])] }

/-- C3 counterexample: the checker completes with success on a container
whose index 1 has derived offset 90 against reference offset 100 — a
deviation of 10, far beyond 1 "in either direction".  The code's test
`this_offset - offset > 1` is one-sided, so downward drift of any
magnitude passes. -/
theorem checker_two_sided_counterexample :
    check_timestamps checkDriftExample = CheckResult.success ∧
    hdrVal checkDriftExample.get 0 2 = some 100 ∧
    hdrVal checkDriftExample.frib_evt 0 1 = some 0 ∧
    hdrVal checkDriftExample.get 1 2 = some 90 ∧
    hdrVal checkDriftExample.frib_evt 1 1 = some 0 ∧
    ¬((100 - 0 : Int) - (90 - 0) ≤ 1) :=
  ⟨by decide, by decide, by decide, by decide, by decide, by decide⟩

/-- C3 (amended): whenever the checker completes its scan and reports
success, every scanned index N satisfies only the one-sided bound
`this_offset(N) - offset <= 1`: the derived clock offset never exceeds the
reference offset by more than 1, but may lie arbitrarily far below it. -/
theorem checker_success_upper_bound (c : CheckContainer)
    (emin emax g0 f0 : Int) (G F : Nat → Int)
    (hm0 : c.meta_data[0]? = some emin) (hm2 : c.meta_data[2]? = some emax)
    (hg0 : hdrVal c.get emin 2 = some g0)
    (hf0 : hdrVal c.frib_evt emin 1 = some f0)
    (hG : ∀ j : Nat, j < (emax - emin).toNat →
      hdrVal c.get (emin + j) 2 = some (G j))
    (hF : ∀ j : Nat, j < (emax - emin).toNat →
      hdrVal c.frib_evt (emin + j) 1 = some (F j))
    (hsucc : check_timestamps c = CheckResult.success) :
    ∀ j : Nat, j < (emax - emin).toNat → G j - F j - (g0 - f0) ≤ 1 := by
  intro j hj
  rw [check_timestamps_eq hm0 hm2 hg0 hf0] at hsucc
  exact checkLoop_success_bound ((emax - emin).toNat) emin hsucc j hj
    (G j) (F j) (hG j hj) (hF j hj)

theorem checker_success_upper_bound_witness :
    (90 : Int) - 0 - (100 - 0) ≤ 1 := by
  have h := checker_success_upper_bound checkDriftExample 0 2 100 0
    (fun j => if j = 0 then 100 else 90) (fun _ => 0)
    rfl rfl (by decide) (by decide) (by decide) (by decide) (by decide)
    1 (by decide)
  exact h
